import Mathlib

/-!
Verification of the ELF section-header decoder (src/src/elf/section.rs).

The Rust module is embedded shallowly: machine integers become `Nat`
(u32 fields are constrained by explicit `< 2 ^ 32` bounds where they
matter), the `bitflags` sets become a `bits : Nat` wrapper with the
`contains` mask-and-compare test, and the one aborting code path
(`panic!` inside `TypeRepr::as_type`) becomes an explicit
`AsTypeResult.panicked` constructor, distinct from any ordinary
return value.
-/

namespace ElfSection

/-- Reserved type-code range boundaries (SHT_LOOS .. SHT_HIUSER in the source). -/
def SHT_LOOS : Nat := 0x60000000

def SHT_HIOS : Nat := 0x6fffffff

def SHT_LOPROC : Nat := 0x70000000

def SHT_HIPROC : Nat := 0x7fffffff

def SHT_LOUSER : Nat := 0x80000000

def SHT_HIUSER : Nat := 0xffffffff

/-- The source enum `Type`: fifteen named non-range variants, two variants
(`Group`, `SymbolTableShIndex`) declared but never produced by the
classifier, and three range-carrying variants. (`Type` is a reserved word
in Lean, hence the name `SectionType`.) -/
inductive SectionType where
  | Null
  | ProgramBits
  | SymbolTable
  | StringTable
  | Rela
  | HashTable
  | Dynamic
  | Notes
  | NoBits
  | Rel
  | Shlib
  | DynSymTable
  | InitArray
  | FiniArray
  | PreInitArray
  | Group
  | SymbolTableShIndex
  | OSSpecific (code : Nat)
  | ProcessorSpecific (code : Nat)
  | User (code : Nat)
  deriving DecidableEq, Repr

/-- The source struct `TypeRepr(u32)`: the raw 32-bit type code. -/
structure TypeRepr where
  val : Nat
  deriving DecidableEq, Repr

/-- Result of `TypeRepr::as_type`. The Rust function returns a bare `Type`
and panics (aborts) on an unmatched code; the panic is modelled as the
distinguished `panicked` constructor carrying the panic message, so a
panicking run is distinguishable from any ordinary return. -/
inductive AsTypeResult where
  | ok (t : SectionType)
  | panicked (msg : String)
  deriving DecidableEq, Repr

/-- Shallow embedding of `TypeRepr::as_type` (src/src/elf/section.rs:120-142):
exact matches on 0-11 and 14-16 first, then the three reserved ranges,
otherwise the source runs `panic!("Invalid section type!")`. -/
def TypeRepr.as_type (t : TypeRepr) : AsTypeResult :=
  if t.val = 0 then .ok .Null
  else if t.val = 1 then .ok .ProgramBits
  else if t.val = 2 then .ok .SymbolTable
  else if t.val = 3 then .ok .StringTable
  else if t.val = 4 then .ok .Rela
  else if t.val = 5 then .ok .HashTable
  else if t.val = 6 then .ok .Dynamic
  else if t.val = 7 then .ok .Notes
  else if t.val = 8 then .ok .NoBits
  else if t.val = 9 then .ok .Rel
  else if t.val = 10 then .ok .Shlib
  else if t.val = 11 then .ok .DynSymTable
  else if t.val = 14 then .ok .InitArray
  else if t.val = 15 then .ok .FiniArray
  else if t.val = 16 then .ok .PreInitArray
  else if SHT_LOOS ≤ t.val ∧ t.val ≤ SHT_HIOS then .ok (.OSSpecific t.val)
  else if SHT_LOPROC ≤ t.val ∧ t.val ≤ SHT_HIPROC then .ok (.ProcessorSpecific t.val)
  else if SHT_LOUSER ≤ t.val ∧ t.val ≤ SHT_HIUSER then .ok (.User t.val)
  else .panicked "Invalid section type!"

/-- Flag bit constants of the `bitflags! { flags Flags : usize { ... } }`
block (src/src/elf/section.rs:49-66). -/
def SHF_WRITE : Nat := 0x1

def SHF_ALLOC : Nat := 0x2

def SHF_EXECINSTR : Nat := 0x4

def SHF_MERGE : Nat := 0x10

def SHF_STRINGS : Nat := 0x20

def SHF_INFO_LINK : Nat := 0x40

def SHF_LINK_ORDER : Nat := 0x80

def SHF_OS_NONCONFORMING : Nat := 0x100

def SHF_GROUP : Nat := 0x200

def SHF_TLS : Nat := 0x400

def SHF_COMPRESSED : Nat := 0x800

def SHF_MASKOS : Nat := 0x0ff00000

def SHF_MASKPROC : Nat := 0xf0000000

/-- The `Flags` bit set generated by `bitflags!`: a raw machine word. -/
structure Flags where
  bits : Nat
  deriving DecidableEq, Repr

/-- The `contains` test generated by `bitflags!`: mask-and-compare,
`(self.bits & other.bits) == other.bits`. -/
def Flags.contains (f : Flags) (mask : Nat) : Bool :=
  f.bits &&& mask == mask

/-- The `Header` struct (src/src/elf/section.rs:31-47): the ten fixed fields
of an ELF section header. `PAddr` (external `memory` crate) and `usize`
are modelled as `Nat`. -/
structure Header where
  name_offset : Nat
  ty : TypeRepr
  flags : Flags
  address : Nat
  offset : Nat
  length : Nat
  link : Nat
  info : Nat
  address_align : Nat
  entry_length : Nat
  deriving DecidableEq, Repr

/-- `Header::is_writable` (src/src/elf/section.rs:85-87). -/
def Header.is_writable (h : Header) : Bool :=
  h.flags.contains SHF_WRITE

/-- `Header::is_allocated` (src/src/elf/section.rs:90-92). -/
def Header.is_allocated (h : Header) : Bool :=
  h.flags.contains SHF_ALLOC

/-- `Header::is_executable` (src/src/elf/section.rs:95-97). -/
def Header.is_executable (h : Header) : Bool :=
  h.flags.contains SHF_EXECINSTR

/-- `Header::is_mergeable` (src/src/elf/section.rs:100-102). -/
def Header.is_mergeable (h : Header) : Bool :=
  h.flags.contains SHF_MERGE

/-- `Header::is_uniform` (src/src/elf/section.rs:105-107). -/
def Header.is_uniform (h : Header) : Bool :=
  h.flags.contains SHF_MERGE && !(h.flags.contains SHF_STRINGS)

/-- The `Contents` enum (src/src/elf/section.rs:110-114): a section's
payload view. Borrowed byte and u32 spans are modelled as value lists;
the source's field name `indicies` (sic) is kept. -/
inductive Contents where
  | Empty
  | Undefined (bytes : List Nat)
  | Group (flags : Nat) (indicies : List Nat)
  deriving DecidableEq, Repr

/-- Little-endian value of a byte list (least significant byte first). -/
def leVal : List Nat → Nat
  | [] => 0
  | b :: bs => b + 256 * leVal bs

/-- Little-endian encoding of `v` into exactly `n` bytes. -/
def encodeLE : Nat → Nat → List Nat
  | 0, _ => []
  | n + 1, v => v % 256 :: encodeLE n (v / 256)

/-- Reinterpret a byte list as consecutive little-endian 32-bit words. -/
def parseU32s : List Nat → List Nat
  | b0 :: b1 :: b2 :: b3 :: rest => leVal [b0, b1, b2, b3] :: parseU32s rest
  | _ => []

/-- Modelled from the spec: the Contents View (spec §4.4). The repository
declares `Contents` but ships no function producing it from a classified
type and a byte span, so the mapping is taken from the spec's words: a
`Null`-typed section yields `Empty` regardless of its bytes; a
group-typed section parses a leading 32-bit flag word followed by the
ordered 32-bit indices filling the remainder, failing with "malformed
group payload" when the length is not flag-word size plus a multiple of
4; every other type yields `Undefined` with the raw bytes. -/
def contentsOf (t : SectionType) (bytes : List Nat) : Except String Contents :=
  match t with
  | .Null => .ok .Empty
  | .Group =>
      if 4 ≤ bytes.length ∧ bytes.length % 4 = 0 then
        .ok (.Group (leVal (bytes.take 4)) (parseU32s (bytes.drop 4)))
      else .error "malformed group payload"
  | _ => .ok (.Undefined bytes)

/-- The two ELF classes a section header table can use. -/
inductive ElfClass where
  | Class32
  | Class64
  deriving DecidableEq, Repr

/-- Width in bytes of the class's machine word (`usize`/`PAddr`). -/
def wordSize : ElfClass → Nat
  | .Class32 => 4
  | .Class64 => 8

/-- Modelled from the spec: the fixed record layout of one section header
(spec §6) — the widths, in order, of `name_offset:u32, type_code:u32,
flags:word, address:addr, offset:addr, length:addr, link:u32, info:u32,
address_align:u32, entry_length:addr`, with no padding between fields. -/
def layout (c : ElfClass) : List Nat :=
  [4, 4, wordSize c, wordSize c, wordSize c, wordSize c, 4, 4, 4, wordSize c]

/-- The fixed record size for a class: the sum of its field widths. -/
def recordSize (c : ElfClass) : Nat :=
  (layout c).sum

/-- Split a byte span into consecutive little-endian fields of the given
widths; `none` when the span runs out before the widths do. -/
def splitFields : List Nat → List Nat → Option (List Nat)
  | [], _ => some []
  | w :: ws, bytes =>
      if w ≤ bytes.length then
        match splitFields ws (bytes.drop w) with
        | some vs => some (leVal (bytes.take w) :: vs)
        | none => none
      else none

/-- Modelled from the spec: constructing a Section Header View over a byte
span (spec §4.3). The repository ships no byte-span constructor for
`Header` (the struct is a `#[repr(C)]` view), so construction follows
the spec's words: read the ten fixed fields at their fixed offsets, and
report a truncated-table error — producing no view — whenever the span
is shorter than the class's fixed record size. -/
def Header.from_bytes (c : ElfClass) (bytes : List Nat) : Except String Header :=
  match splitFields (layout c) bytes with
  | some [n, t, f, a, o, l, lk, i, al, e] =>
      .ok { name_offset := n, ty := ⟨t⟩, flags := ⟨f⟩, address := a, offset := o,
            length := l, link := lk, info := i, address_align := al, entry_length := e }
  | _ => .error "truncated section header record"

/-- Encode consecutive little-endian fields of the given widths. -/
def encodeFields : List Nat → List Nat → List Nat
  | w :: ws, v :: vs => encodeLE w v ++ encodeFields ws vs
  | _, _ => []

/-- Serialize a header's ten fields at their fixed offsets for a class. -/
def encodeHeader (c : ElfClass) (h : Header) : List Nat :=
  encodeFields (layout c)
    [h.name_offset, h.ty.val, h.flags.bits, h.address, h.offset,
     h.length, h.link, h.info, h.address_align, h.entry_length]

end ElfSection

open ElfSection

/-- Mask-and-compare against a single bit agrees with `Nat.testBit`. -/
theorem contains_two_pow (b k : Nat) : ((b &&& 2 ^ k) == 2 ^ k) = b.testBit k := by
  rw [Nat.and_two_pow]
  cases h : b.testBit k <;> simp
  exact (Nat.two_pow_pos k).ne

/-- A word confined to the OS/processor mask bits has all low bits clear. -/
theorem mask_bit_clear (m k : Nat) (hk : k < 20)
    (hm : m &&& (SHF_MASKOS ||| SHF_MASKPROC) = m) : m.testBit k = false := by
  have h2 : (m &&& (SHF_MASKOS ||| SHF_MASKPROC)).testBit k = m.testBit k := by
    rw [hm]
  rw [Nat.testBit_and] at h2
  have h3 : (SHF_MASKOS ||| SHF_MASKPROC : Nat) = 0xfff00000 := by decide
  have h4 : (0xfff00000 : Nat).testBit k = false := by
    have h5 : (0xfff00000 : Nat) = 2 ^ 20 * 0xfff := by norm_num
    rw [h5, Nat.testBit_mul_pow_two]
    have h6 : ¬(k ≥ 20) := by omega
    simp [h6]
  rw [h3, h4, Bool.and_false] at h2
  exact h2.symm

/-- Claim C4: the four single-bit predicates agree with `Nat.testBit` on
their assigned bit (writable bit 0, allocated bit 1, executable bit 2,
mergeable bit 4), and ORing any word confined to the reserved
`MASKOS`/`MASKPROC` ranges into the flags changes none of them. -/
theorem flag_predicates_bit_exact (h : Header) (m : Nat)
    (hm : m &&& (SHF_MASKOS ||| SHF_MASKPROC) = m) :
    (h.is_writable = h.flags.bits.testBit 0 ∧
     h.is_allocated = h.flags.bits.testBit 1 ∧
     h.is_executable = h.flags.bits.testBit 2 ∧
     h.is_mergeable = h.flags.bits.testBit 4) ∧
    (({ h with flags := ⟨h.flags.bits ||| m⟩ } : Header).is_writable = h.is_writable ∧
     ({ h with flags := ⟨h.flags.bits ||| m⟩ } : Header).is_allocated = h.is_allocated ∧
     ({ h with flags := ⟨h.flags.bits ||| m⟩ } : Header).is_executable = h.is_executable ∧
     ({ h with flags := ⟨h.flags.bits ||| m⟩ } : Header).is_mergeable = h.is_mergeable) := by
  have key : ∀ (b : Nat) (k : Nat), k < 20 →
      ((b ||| m) &&& 2 ^ k == 2 ^ k) = (b &&& 2 ^ k == 2 ^ k) := by
    intro b k hk
    rw [contains_two_pow, contains_two_pow, Nat.testBit_or,
      mask_bit_clear m k hk hm, Bool.or_false]
  refine ⟨⟨?_, ?_, ?_, ?_⟩, ?_, ?_, ?_, ?_⟩ <;>
    simp only [Header.is_writable, Header.is_allocated, Header.is_executable,
      Header.is_mergeable, Flags.contains, SHF_WRITE, SHF_ALLOC, SHF_EXECINSTR, SHF_MERGE]
  · exact contains_two_pow h.flags.bits 0
  · exact contains_two_pow h.flags.bits 1
  · exact contains_two_pow h.flags.bits 2
  · exact contains_two_pow h.flags.bits 4
  · exact key h.flags.bits 0 (by omega)
  · exact key h.flags.bits 1 (by omega)
  · exact key h.flags.bits 2 (by omega)
  · exact key h.flags.bits 4 (by omega)

/-- Witness for C4 at a concrete header (flags 0x17) and the concrete
reserved-range word 0x80100000. -/
theorem flag_predicates_bit_exact_witness :
    ((⟨0, ⟨1⟩, ⟨0x17⟩, 0, 0, 0, 0, 0, 0, 0⟩ : Header).is_writable =
        (0x17 : Nat).testBit 0 ∧
      (⟨0, ⟨1⟩, ⟨0x17⟩, 0, 0, 0, 0, 0, 0, 0⟩ : Header).is_allocated =
        (0x17 : Nat).testBit 1 ∧
      (⟨0, ⟨1⟩, ⟨0x17⟩, 0, 0, 0, 0, 0, 0, 0⟩ : Header).is_executable =
        (0x17 : Nat).testBit 2 ∧
      (⟨0, ⟨1⟩, ⟨0x17⟩, 0, 0, 0, 0, 0, 0, 0⟩ : Header).is_mergeable =
        (0x17 : Nat).testBit 4) ∧
    ((⟨0, ⟨1⟩, ⟨0x17 ||| 0x80100000⟩, 0, 0, 0, 0, 0, 0, 0⟩ : Header).is_writable =
        (⟨0, ⟨1⟩, ⟨0x17⟩, 0, 0, 0, 0, 0, 0, 0⟩ : Header).is_writable ∧
      (⟨0, ⟨1⟩, ⟨0x17 ||| 0x80100000⟩, 0, 0, 0, 0, 0, 0, 0⟩ : Header).is_allocated =
        (⟨0, ⟨1⟩, ⟨0x17⟩, 0, 0, 0, 0, 0, 0, 0⟩ : Header).is_allocated ∧
      (⟨0, ⟨1⟩, ⟨0x17 ||| 0x80100000⟩, 0, 0, 0, 0, 0, 0, 0⟩ : Header).is_executable =
        (⟨0, ⟨1⟩, ⟨0x17⟩, 0, 0, 0, 0, 0, 0, 0⟩ : Header).is_executable ∧
      (⟨0, ⟨1⟩, ⟨0x17 ||| 0x80100000⟩, 0, 0, 0, 0, 0, 0, 0⟩ : Header).is_mergeable =
        (⟨0, ⟨1⟩, ⟨0x17⟩, 0, 0, 0, 0, 0, 0, 0⟩ : Header).is_mergeable) :=
  flag_predicates_bit_exact ⟨0, ⟨1⟩, ⟨0x17⟩, 0, 0, 0, 0, 0, 0, 0⟩ 0x80100000 (by decide)

/-- Claim C5: `is_uniform` is true exactly when the mergeable bit (bit 4)
is set and the null-terminated-strings bit (bit 5) is clear; in
particular flags 0x10 give true while flags 0x30 and 0x0 give false. -/
theorem is_uniform_merge_not_strings (h : Header) :
    h.is_uniform = (h.flags.bits.testBit 4 && !h.flags.bits.testBit 5) ∧
    (⟨0, ⟨1⟩, ⟨0x10⟩, 0, 0, 0, 0, 0, 0, 0⟩ : Header).is_uniform = true ∧
    (⟨0, ⟨1⟩, ⟨0x30⟩, 0, 0, 0, 0, 0, 0, 0⟩ : Header).is_uniform = false ∧
    (⟨0, ⟨1⟩, ⟨0x0⟩, 0, 0, 0, 0, 0, 0, 0⟩ : Header).is_uniform = false := by
  refine ⟨?_, by decide, by decide, by decide⟩
  simp only [Header.is_uniform, Flags.contains, SHF_MERGE, SHF_STRINGS]
  rw [show ((h.flags.bits &&& 16 == 16) : Bool) = h.flags.bits.testBit 4 from
      contains_two_pow h.flags.bits 4,
    show ((h.flags.bits &&& 32 == 32) : Bool) = h.flags.bits.testBit 5 from
      contains_two_pow h.flags.bits 5]

/-- Claim C10: the five flag predicates are functions of the flags field
alone — two headers with equal flags agree on all five — and
`is_uniform` implies `is_mergeable`. -/
theorem flag_predicates_depend_only_on_flags (h1 h2 h3 : Header)
    (hf : h1.flags = h2.flags) (hu : h3.is_uniform = true) :
    (h1.is_writable = h2.is_writable ∧
     h1.is_allocated = h2.is_allocated ∧
     h1.is_executable = h2.is_executable ∧
     h1.is_mergeable = h2.is_mergeable ∧
     h1.is_uniform = h2.is_uniform) ∧
    h3.is_mergeable = true := by
  constructor
  · simp only [Header.is_writable, Header.is_allocated, Header.is_executable,
      Header.is_mergeable, Header.is_uniform, hf]
    exact ⟨trivial, trivial, trivial, trivial, trivial⟩
  · simp only [Header.is_uniform, Bool.and_eq_true] at hu
    exact hu.1

/-- Witness for C10: two concrete headers sharing flags 0x12 but differing
in every other field, and a concrete uniform (flags 0x10) header. -/
theorem flag_predicates_depend_only_on_flags_witness :
    ((⟨0, ⟨1⟩, ⟨0x12⟩, 2, 3, 4, 5, 6, 7, 8⟩ : Header).is_writable =
        (⟨9, ⟨2⟩, ⟨0x12⟩, 10, 11, 12, 13, 14, 15, 16⟩ : Header).is_writable ∧
      (⟨0, ⟨1⟩, ⟨0x12⟩, 2, 3, 4, 5, 6, 7, 8⟩ : Header).is_allocated =
        (⟨9, ⟨2⟩, ⟨0x12⟩, 10, 11, 12, 13, 14, 15, 16⟩ : Header).is_allocated ∧
      (⟨0, ⟨1⟩, ⟨0x12⟩, 2, 3, 4, 5, 6, 7, 8⟩ : Header).is_executable =
        (⟨9, ⟨2⟩, ⟨0x12⟩, 10, 11, 12, 13, 14, 15, 16⟩ : Header).is_executable ∧
      (⟨0, ⟨1⟩, ⟨0x12⟩, 2, 3, 4, 5, 6, 7, 8⟩ : Header).is_mergeable =
        (⟨9, ⟨2⟩, ⟨0x12⟩, 10, 11, 12, 13, 14, 15, 16⟩ : Header).is_mergeable ∧
      (⟨0, ⟨1⟩, ⟨0x12⟩, 2, 3, 4, 5, 6, 7, 8⟩ : Header).is_uniform =
        (⟨9, ⟨2⟩, ⟨0x12⟩, 10, 11, 12, 13, 14, 15, 16⟩ : Header).is_uniform) ∧
    (⟨0, ⟨1⟩, ⟨0x10⟩, 0, 0, 0, 0, 0, 0, 0⟩ : Header).is_mergeable = true :=
  flag_predicates_depend_only_on_flags
    ⟨0, ⟨1⟩, ⟨0x12⟩, 2, 3, 4, 5, 6, 7, 8⟩
    ⟨9, ⟨2⟩, ⟨0x12⟩, 10, 11, 12, 13, 14, 15, 16⟩
    ⟨0, ⟨1⟩, ⟨0x10⟩, 0, 0, 0, 0, 0, 0, 0⟩ rfl (by decide)

/-- Claim C1: for every type code in {0,...,11,14,15,16} the classifier
`TypeRepr.as_type` returns exactly the corresponding named non-range
`SectionType` variant. -/
theorem as_type_fixed_codes :
    (TypeRepr.mk 0).as_type = .ok .Null ∧
    (TypeRepr.mk 1).as_type = .ok .ProgramBits ∧
    (TypeRepr.mk 2).as_type = .ok .SymbolTable ∧
    (TypeRepr.mk 3).as_type = .ok .StringTable ∧
    (TypeRepr.mk 4).as_type = .ok .Rela ∧
    (TypeRepr.mk 5).as_type = .ok .HashTable ∧
    (TypeRepr.mk 6).as_type = .ok .Dynamic ∧
    (TypeRepr.mk 7).as_type = .ok .Notes ∧
    (TypeRepr.mk 8).as_type = .ok .NoBits ∧
    (TypeRepr.mk 9).as_type = .ok .Rel ∧
    (TypeRepr.mk 10).as_type = .ok .Shlib ∧
    (TypeRepr.mk 11).as_type = .ok .DynSymTable ∧
    (TypeRepr.mk 14).as_type = .ok .InitArray ∧
    (TypeRepr.mk 15).as_type = .ok .FiniArray ∧
    (TypeRepr.mk 16).as_type = .ok .PreInitArray := by
  decide

/-- On any code outside the fifteen exact matches, `as_type` reduces to the
three range tests (helper shared by the range and failure claims). -/
theorem as_type_unfixed (x : Nat) (h : x = 12 ∨ x = 13 ∨ 17 ≤ x) :
    (TypeRepr.mk x).as_type =
      if 0x60000000 ≤ x ∧ x ≤ 0x6fffffff then .ok (.OSSpecific x)
      else if 0x70000000 ≤ x ∧ x ≤ 0x7fffffff then .ok (.ProcessorSpecific x)
      else if 0x80000000 ≤ x ∧ x ≤ 0xffffffff then .ok (.User x)
      else .panicked "Invalid section type!" := by
  unfold TypeRepr.as_type
  simp only [SHT_LOOS, SHT_HIOS, SHT_LOPROC, SHT_HIPROC, SHT_LOUSER, SHT_HIUSER]
  rw [if_neg (by omega : ¬(x = 0)), if_neg (by omega : ¬(x = 1)),
    if_neg (by omega : ¬(x = 2)), if_neg (by omega : ¬(x = 3)),
    if_neg (by omega : ¬(x = 4)), if_neg (by omega : ¬(x = 5)),
    if_neg (by omega : ¬(x = 6)), if_neg (by omega : ¬(x = 7)),
    if_neg (by omega : ¬(x = 8)), if_neg (by omega : ¬(x = 9)),
    if_neg (by omega : ¬(x = 10)), if_neg (by omega : ¬(x = 11)),
    if_neg (by omega : ¬(x = 14)), if_neg (by omega : ¬(x = 15)),
    if_neg (by omega : ¬(x = 16))]

/-- Claim C2: over the three reserved ranges the classifier returns the
matching range-carrying variant with the raw code preserved unchanged:
`OSSpecific` on [0x60000000, 0x6fffffff], `ProcessorSpecific` on
[0x70000000, 0x7fffffff] and `User` on [0x80000000, 0xffffffff]. -/
theorem as_type_reserved_ranges (x : Nat) :
    (0x60000000 ≤ x → x ≤ 0x6fffffff →
      (TypeRepr.mk x).as_type = .ok (.OSSpecific x)) ∧
    (0x70000000 ≤ x → x ≤ 0x7fffffff →
      (TypeRepr.mk x).as_type = .ok (.ProcessorSpecific x)) ∧
    (0x80000000 ≤ x → x ≤ 0xffffffff →
      (TypeRepr.mk x).as_type = .ok (.User x)) := by
  refine ⟨fun h1 h2 => ?_, fun h1 h2 => ?_, fun h1 h2 => ?_⟩ <;>
    · rw [as_type_unfixed x (by omega)]
      split_ifs <;> first | rfl | omega

/-- Witness for C2 at one concrete code from each reserved range. -/
theorem as_type_reserved_ranges_witness :
    (TypeRepr.mk 0x60000001).as_type = .ok (.OSSpecific 0x60000001) ∧
    (TypeRepr.mk 0x7fffffff).as_type = .ok (.ProcessorSpecific 0x7fffffff) ∧
    (TypeRepr.mk 0x80000000).as_type = .ok (.User 0x80000000) :=
  ⟨(as_type_reserved_ranges 0x60000001).1 (by decide) (by decide),
   (as_type_reserved_ranges 0x7fffffff).2.1 (by decide) (by decide),
   (as_type_reserved_ranges 0x80000000).2.2 (by decide) (by decide)⟩

/-- Counterexample for C3: at the concrete unassigned code 12 the classifier
does not return any error result; it runs the source's
`panic!("Invalid section type!")`, modelled as `AsTypeResult.panicked`,
which aborts the program instead of propagating a decode error to the
caller (the Rust signature `fn as_type(&self) -> Type` has no error
channel at all). -/
theorem as_type_code12_aborts :
    (TypeRepr.mk 12).as_type = .panicked "Invalid section type!" := by
  decide

/-- Claim C3 amended: for the codes {12, 13} and every code in
[0x11, 0x5fffffff] (which covers 17 and 18), classification fails: it is
never swallowed and never mapped to a default or fallback variant, but the
failure is the unconditional panic "Invalid section type!" — an abort, not
an error result returned to the caller. -/
theorem as_type_unassigned_codes_panic (x : Nat)
    (h : x = 12 ∨ x = 13 ∨ (0x11 ≤ x ∧ x ≤ 0x5fffffff)) :
    (TypeRepr.mk x).as_type = .panicked "Invalid section type!" := by
  rw [as_type_unfixed x (by omega)]
  split_ifs <;> first | rfl | omega

/-- Witness for the amended C3 at the concrete code 17 (the conventional
section-group code, absent from the exact-match list). -/
theorem as_type_unassigned_codes_panic_witness :
    (TypeRepr.mk 17).as_type = .panicked "Invalid section type!" :=
  as_type_unassigned_codes_panic 17 (.inr (.inr (by decide)))

/-- Claim C9: the classifier never produces the declared variants `Group`
and `SymbolTableShIndex`: for every raw code, `as_type` differs from
`.ok .Group` and from `.ok .SymbolTableShIndex`. -/
theorem as_type_never_group_or_shindex (t : TypeRepr) :
    t.as_type ≠ .ok .Group ∧ t.as_type ≠ .ok .SymbolTableShIndex := by
  obtain ⟨x⟩ := t
  by_cases h17 : 17 ≤ x
  · rw [as_type_unfixed x (.inr (.inr h17))]
    split_ifs <;> simp
  · have hx : x ≤ 16 := by omega
    interval_cases x <;> decide

/-- Length of the little-endian encoding. -/
theorem encodeLE_length (n v : Nat) : (encodeLE n v).length = n := by
  induction n generalizing v with
  | zero => rfl
  | succ n ih => simp [encodeLE, ih]

/-- Decoding the little-endian encoding of a value within range gives it back. -/
theorem leVal_encodeLE (n v : Nat) (h : v < 256 ^ n) : leVal (encodeLE n v) = v := by
  induction n generalizing v with
  | zero => simp [encodeLE, leVal]; omega
  | succ n ih =>
      have hdiv : v / 256 < 256 ^ n := by
        rw [Nat.div_lt_iff_lt_mul (by norm_num)]
        calc v < 256 ^ (n + 1) := h
          _ = 256 ^ n * 256 := by ring
      simp only [encodeLE, leVal, ih (v / 256) hdiv]
      omega

/-- Parsing a 4-byte encoding off the front of a byte list yields the value. -/
theorem parseU32s_cons (w : Nat) (hw : w < 256 ^ 4) (rest : List Nat) :
    parseU32s (encodeLE 4 w ++ rest) = w :: parseU32s rest := by
  have h4 : encodeLE 4 w =
      [w % 256, w / 256 % 256, w / 256 / 256 % 256, w / 256 / 256 / 256 % 256] := rfl
  rw [h4]
  simp only [List.cons_append, List.nil_append, parseU32s]
  have hv : leVal [w % 256, w / 256 % 256, w / 256 / 256 % 256, w / 256 / 256 / 256 % 256]
      = leVal (encodeLE 4 w) := by rw [h4]
  rw [hv, leVal_encodeLE 4 w hw]
  rfl

/-- Parsing the concatenation of 4-byte encodings yields the encoded words
in order. -/
theorem parseU32s_encoded (ws : List Nat) (h : ∀ x ∈ ws, x < 256 ^ 4) :
    parseU32s ((ws.map (encodeLE 4)).flatten) = ws := by
  induction ws with
  | nil => rfl
  | cons w ws ih =>
      simp only [List.map_cons, List.flatten_cons]
      rw [parseU32s_cons w (h w (by simp)) _, ih (fun x hx => h x (by simp [hx]))]

/-- The concatenation of the 4-byte encodings of n words is 4 * n long. -/
theorem flatten_encode_length (ws : List Nat) :
    ((ws.map (encodeLE 4)).flatten).length = 4 * ws.length := by
  induction ws with
  | nil => rfl
  | cons w ws ih =>
      simp only [List.map_cons, List.flatten_cons, List.length_append,
        encodeLE_length, ih, List.length_cons]
      omega

/-- Taking exactly the prefix of an append yields the prefix. -/
theorem take_append_of_length (l1 l2 : List Nat) (n : Nat) (h : l1.length = n) :
    (l1 ++ l2).take n = l1 := by
  subst h
  exact List.take_left l1 l2

/-- Dropping exactly the prefix of an append yields the suffix. -/
theorem drop_append_of_length (l1 l2 : List Nat) (n : Nat) (h : l1.length = n) :
    (l1 ++ l2).drop n = l2 := by
  subst h
  exact List.drop_left l1 l2

/-- Claim C6: the Contents View is total over the classified type space —
a Null-typed section yields Empty on any byte span; a group-typed
section whose payload is a 32-bit flag word followed by n encoded 32-bit
indices yields Group with exactly those n indices in their original
order; a group payload whose length is not 4 + 4 * n yields the
"malformed group payload" decode error; every other type yields
Undefined carrying the raw bytes, never a panic. -/
theorem contents_view_total (t : SectionType) (bytes : List Nat) :
    contentsOf .Null bytes = .ok .Empty ∧
    (∀ w ws, w < 256 ^ 4 → (∀ x ∈ ws, x < 256 ^ 4) →
      contentsOf .Group (encodeLE 4 w ++ (ws.map (encodeLE 4)).flatten) =
        .ok (.Group w ws)) ∧
    ((¬ ∃ n, bytes.length = 4 + 4 * n) →
      contentsOf .Group bytes = .error "malformed group payload") ∧
    (t ≠ .Null → t ≠ .Group → contentsOf t bytes = .ok (.Undefined bytes)) := by
  refine ⟨rfl, ?_, ?_, ?_⟩
  · intro w ws hw hws
    have hlen : (encodeLE 4 w ++ (ws.map (encodeLE 4)).flatten).length =
        4 + 4 * ws.length := by
      rw [List.length_append, encodeLE_length, flatten_encode_length]
    have hcond : 4 ≤ (encodeLE 4 w ++ (ws.map (encodeLE 4)).flatten).length ∧
        (encodeLE 4 w ++ (ws.map (encodeLE 4)).flatten).length % 4 = 0 := by
      rw [hlen]; omega
    have htake : (encodeLE 4 w ++ (ws.map (encodeLE 4)).flatten).take 4 =
        encodeLE 4 w :=
      take_append_of_length _ _ 4 (encodeLE_length 4 w)
    have hdrop : (encodeLE 4 w ++ (ws.map (encodeLE 4)).flatten).drop 4 =
        (ws.map (encodeLE 4)).flatten :=
      drop_append_of_length _ _ 4 (encodeLE_length 4 w)
    simp only [contentsOf, if_pos hcond, htake, hdrop,
      leVal_encodeLE 4 w hw, parseU32s_encoded ws hws]
  · intro hnot
    have hcond : ¬(4 ≤ bytes.length ∧ bytes.length % 4 = 0) := by
      intro hc
      exact hnot ⟨(bytes.length - 4) / 4, by omega⟩
    simp only [contentsOf, if_neg hcond]
  · intro h1 h2
    cases t <;> simp_all [contentsOf]

/-- A byte span shorter than the total field width cannot be split. -/
theorem splitFields_none (ws : List Nat) (bytes : List Nat)
    (h : bytes.length < ws.sum) : splitFields ws bytes = none := by
  induction ws generalizing bytes with
  | nil => simp [List.sum_nil] at h
  | cons w ws ih =>
      simp only [splitFields]
      by_cases hw : w ≤ bytes.length
      · have hlt : (bytes.drop w).length < ws.sum := by
          simp only [List.length_drop]
          simp only [List.sum_cons] at h
          omega
        rw [if_pos hw, ih (bytes.drop w) hlt]
      · rw [if_neg hw]

/-- Claim C7: constructing a Section Header View from a byte span shorter
than the class's fixed record size fails with the truncated-table error:
no view is produced and the span is never silently truncated. -/
theorem from_bytes_truncated (c : ElfClass) (bytes : List Nat)
    (h : bytes.length < recordSize c) :
    Header.from_bytes c bytes = .error "truncated section header record" := by
  unfold Header.from_bytes
  rw [splitFields_none (layout c) bytes h]

/-- Witness for C7: the empty span is shorter than both record sizes. -/
theorem from_bytes_truncated_witness :
    Header.from_bytes .Class32 ([] : List Nat) =
        .error "truncated section header record" ∧
    Header.from_bytes .Class64 ([] : List Nat) =
        .error "truncated section header record" :=
  ⟨from_bytes_truncated .Class32 [] (by decide),
   from_bytes_truncated .Class64 [] (by decide)⟩

/-- Splitting the encoding of in-range field values recovers the values. -/
theorem splitFields_encodeFields (ws vs : List Nat)
    (h : List.Forall₂ (fun v w => v < 256 ^ w) vs ws) :
    splitFields ws (encodeFields ws vs) = some vs := by
  induction h with
  | nil => rfl
  | @cons v w vs ws hvw hrest ih =>
      simp only [encodeFields, splitFields]
      have hlen : (encodeLE w v).length = w := encodeLE_length w v
      rw [if_pos (by simp only [List.length_append, hlen]; omega)]
      rw [drop_append_of_length _ _ w hlen, ih,
        take_append_of_length _ _ w hlen, leVal_encodeLE w v hvw]

/-- Claim C8: the round-trip — serializing ten in-range field values at
their fixed offsets (no padding between fields) and constructing a
Section Header View from the resulting span reads back exactly the
values written, for both the 32-bit and the 64-bit ELF class. -/
theorem from_bytes_roundtrip (c : ElfClass) (h : Header)
    (h1 : h.name_offset < 256 ^ 4) (h2 : h.ty.val < 256 ^ 4)
    (h3 : h.flags.bits < 256 ^ wordSize c) (h4 : h.address < 256 ^ wordSize c)
    (h5 : h.offset < 256 ^ wordSize c) (h6 : h.length < 256 ^ wordSize c)
    (h7 : h.link < 256 ^ 4) (h8 : h.info < 256 ^ 4)
    (h9 : h.address_align < 256 ^ 4) (h10 : h.entry_length < 256 ^ wordSize c) :
    Header.from_bytes c (encodeHeader c h) = .ok h := by
  have hsplit : splitFields (layout c) (encodeHeader c h) =
      some [h.name_offset, h.ty.val, h.flags.bits, h.address, h.offset,
        h.length, h.link, h.info, h.address_align, h.entry_length] := by
    cases c <;>
      exact splitFields_encodeFields _ _
        (.cons h1 (.cons h2 (.cons h3 (.cons h4 (.cons h5 (.cons h6
          (.cons h7 (.cons h8 (.cons h9 (.cons h10 .nil))))))))))
  unfold Header.from_bytes
  rw [hsplit]

/-- Witness for C8: one concrete header with ten distinct field values,
round-tripped through both ELF classes. -/
theorem from_bytes_roundtrip_witness :
    Header.from_bytes .Class32
        (encodeHeader .Class32 ⟨1, ⟨2⟩, ⟨3⟩, 4, 5, 6, 7, 8, 9, 10⟩) =
      .ok ⟨1, ⟨2⟩, ⟨3⟩, 4, 5, 6, 7, 8, 9, 10⟩ ∧
    Header.from_bytes .Class64
        (encodeHeader .Class64 ⟨1, ⟨2⟩, ⟨3⟩, 4, 5, 6, 7, 8, 9, 10⟩) =
      .ok ⟨1, ⟨2⟩, ⟨3⟩, 4, 5, 6, 7, 8, 9, 10⟩ :=
  ⟨from_bytes_roundtrip .Class32 ⟨1, ⟨2⟩, ⟨3⟩, 4, 5, 6, 7, 8, 9, 10⟩
      (by decide) (by decide) (by decide) (by decide) (by decide)
      (by decide) (by decide) (by decide) (by decide) (by decide),
   from_bytes_roundtrip .Class64 ⟨1, ⟨2⟩, ⟨3⟩, 4, 5, 6, 7, 8, 9, 10⟩
      (by decide) (by decide) (by decide) (by decide) (by decide)
      (by decide) (by decide) (by decide) (by decide) (by decide)⟩
